import Mathlib

/-!
Verification development for the authentik email verification stage
(`authentik/stages/email/stage.py`).

The stage is shallowly embedded: the Django/DRF side effects (ORM token
store, outgoing mail, plan-context mutation, user activation, user-facing
messages) are made explicit as values threaded through and returned by the
embedded functions.  Time is measured in minutes (the unit the source uses
for `token_expiry`), and token keys are drawn from a monotone counter that
models the unguessable random key generator.
-/

/-- A user record, as far as this stage reads or writes it: its string
representation (used in the token identifier), stored email address,
active flag, and locale. -/
structure User where
  name : String
  email : String
  is_active : Bool
  locale : String
deriving DecidableEq, Repr

/-- The slice of the flow plan's context this stage touches:
`PLAN_CONTEXT_IS_RESTORED` read with default `False`, presence and value of
`PLAN_CONTEXT_PENDING_USER`, presence of the `PLAN_CONTEXT_EMAIL_SENT`
marker, and the `PLAN_CONTEXT_EMAIL_OVERRIDE` ("email") value read with
default `None`. -/
structure PlanContext where
  isRestored : Bool
  pendingUser : Option User
  emailSentPresent : Bool
  emailOverride : Option String
deriving DecidableEq, Repr

/-- A `FlowToken` row: deterministic identifier, opaque key, expiry
timestamp (minutes), owning user, flow, and the pickled plan snapshot. -/
structure FlowToken where
  identifier : String
  key : Nat
  expires : Nat
  userName : String
  flowSlug : String
  plan : PlanContext
deriving DecidableEq, Repr

/-- The token store (the `FlowToken` table) together with the fresh-key
counter modelling the random key generator. -/
structure TokenStore where
  tokens : List FlowToken
  nextKey : Nat
deriving DecidableEq, Repr

/-- Keep a character of the slug candidate? (`\w`, space or hyphen). -/
def slugKeep (c : Char) : Bool :=
  c.isAlphanum || c == ' ' || c == '-' || c == '_'

/-- Collapse consecutive hyphens (spaces have already been mapped to
hyphens) to a single hyphen. -/
def dedupDash : List Char → List Char
  | [] => []
  | [c] => [c]
  | a :: b :: rest =>
    if a == '-' && b == '-' then dedupDash (b :: rest)
    else a :: dedupDash (b :: rest)

/-- Strip leading and trailing hyphens and underscores. -/
def stripDash (l : List Char) : List Char :=
  ((l.dropWhile (fun c => c == '-' || c == '_')).reverse.dropWhile
    (fun c => c == '-' || c == '_')).reverse

/-- `django.utils.text.slugify` (external collaborator): lowercase, drop
characters outside `\w`, whitespace and hyphens, collapse whitespace and
hyphen runs to a single hyphen, strip leading/trailing hyphens and
underscores. -/
def slugify (s : String) : String :=
  let lowered := s.toList.map Char.toLower
  let kept := lowered.filter slugKeep
  let dashed := kept.map (fun c => if c == ' ' then '-' else c)
  String.mk (stripDash (dedupDash dashed))

/-- The deterministic token identifier
`slugify(f"ak-email-stage-{current_stage.name}-{pending_user}")`. -/
def emailIdentifier (stageName : String) (pending_user : User) : String :=
  slugify ("ak-email-stage-" ++ stageName ++ "-" ++ pending_user.name)

/-- The `EmailStage` model configuration consumed by the view. -/
structure EmailStage where
  name : String
  token_expiry : Nat
  activate_user_on_success : Bool
  subject : String
  template : String
deriving DecidableEq, Repr

/-- Does a token row match the looked-up identifier
(`FlowToken.objects.filter(identifier=identifier)`)? -/
def tokenMatches (identifier : String) (t : FlowToken) : Bool :=
  t.identifier == identifier

/-- Modelled from the spec: `ExpiringModel.is_expired` is not among the
given sources; per the spec, expiry is logical, by timestamp comparison. -/
def is_expired (now : Nat) (t : FlowToken) : Bool :=
  t.expires < now

/-- Modelled from the spec: `Token.expire_action` (rotation) is not among
the given sources.  Per the spec it replaces the key with a fresh one and
the expiry with `now + ttl`, preserving the identifier and the rest of the
row. -/
def expire_action (freshKey : Nat) (now : Nat) (ttl : Nat) (t : FlowToken) : FlowToken :=
  { t with key := freshKey, expires := now + ttl }

/-- Replace the first list element satisfying `p` (an in-place row update
of the first row a filtering query returns). -/
def updateFirst (p : α → Bool) (f : α → α) : List α → List α
  | [] => []
  | x :: xs => if p x then f x :: xs else x :: updateFirst p f xs

/-- `EmailStageView.get_token`: look up by identifier; if no token exists,
create one expiring at `now + (token_expiry + 1)` minutes (the `+ 1`
compensates for display rounding); otherwise take the first row, rotating
it first when it is expired. -/
def get_token (stage : EmailStage) (flowSlug : String) (plan : PlanContext)
    (pending_user : User) (store : TokenStore) (now : Nat) :
    FlowToken × TokenStore :=
  match store.tokens.filter (tokenMatches (emailIdentifier stage.name pending_user)) with
  | [] =>
    let tok : FlowToken :=
      { identifier := emailIdentifier stage.name pending_user
        key := store.nextKey
        expires := now + (stage.token_expiry + 1)
        userName := pending_user.name
        flowSlug := flowSlug
        plan := plan }
    (tok, { tokens := store.tokens ++ [tok], nextKey := store.nextKey + 1 })
  | token :: _ =>
    if is_expired now token then
      let rotated := expire_action store.nextKey now stage.token_expiry token
      (rotated,
        { tokens :=
            updateFirst (tokenMatches (emailIdentifier stage.name pending_user))
              (fun _ => rotated) store.tokens
          nextKey := store.nextKey + 1 })
    else (token, store)

theorem get_token_create (stage : EmailStage) (flowSlug : String) (plan : PlanContext)
    (u : User) (store : TokenStore) (now : Nat)
    (h : store.tokens.filter (tokenMatches (emailIdentifier stage.name u)) = []) :
    get_token stage flowSlug plan u store now =
      ({ identifier := emailIdentifier stage.name u
         key := store.nextKey
         expires := now + (stage.token_expiry + 1)
         userName := u.name
         flowSlug := flowSlug
         plan := plan },
       { tokens := store.tokens ++
           [{ identifier := emailIdentifier stage.name u
              key := store.nextKey
              expires := now + (stage.token_expiry + 1)
              userName := u.name
              flowSlug := flowSlug
              plan := plan }]
         nextKey := store.nextKey + 1 }) := by
  unfold get_token
  rw [h]

theorem get_token_found (stage : EmailStage) (flowSlug : String) (plan : PlanContext)
    (u : User) (store : TokenStore) (now : Nat) (token : FlowToken) (rest : List FlowToken)
    (h : store.tokens.filter (tokenMatches (emailIdentifier stage.name u)) = token :: rest) :
    get_token stage flowSlug plan u store now =
      (if is_expired now token then
        (expire_action store.nextKey now stage.token_expiry token,
          { tokens :=
              updateFirst (tokenMatches (emailIdentifier stage.name u))
                (fun _ => expire_action store.nextKey now stage.token_expiry token)
                store.tokens
            nextKey := store.nextKey + 1 })
      else (token, store)) := by
  unfold get_token
  rw [h]

/-- The reserved query-string key carrying the resumption token
(`QS_KEY_TOKEN`, from the flow executor module). -/
def QS_KEY_TOKEN : String := "flow_token"

/-- `EmailStageView.get_full_url`: absolute URL into the flow interface
carrying the token key (`reverse_interface` plus query encoding, external
collaborators). -/
def get_full_url (flowSlug : String) (tokenKey : Nat) : String :=
  "/if/flow/" ++ flowSlug ++ "/?" ++ QS_KEY_TOKEN ++ "=" ++ toString tokenKey

/-- Modelled from the spec: `ChallengeStageView.get_pending_user` is not
among the given sources; per the spec it reads the pending subject from
the plan context. -/
def get_pending_user (ctx : PlanContext) : Option User :=
  ctx.pendingUser

/-- The outgoing `TemplateEmailMessage` (subject, recipients, locale,
template and its context: resumption URL, user, token expiry); `recipients` embeds the message's `to` list (`to` is reserved in Lean). -/
structure EmailMessage where
  subject : String
  recipients : List String
  language : String
  template_name : String
  url : String
  templateUser : User
  expires : Nat
deriving DecidableEq, Repr

/-- The spec's executor transitions observable from this stage: the stage
reports satisfied (`stage_ok`, advance) or invalid (`STAGE_INVALID`,
re-render / abort, no advance), or it renders its challenge and awaits a
response. -/
inductive StageOutcome where
  | stageOk
  | stageInvalid
  | challengeRendered
deriving DecidableEq, Repr

/-- `EmailStageView.send_email`: pick the recipient (the "email" override
from the plan context when truthy, else the pending user's address), get
or create the token, and dispatch the templated message.  The
`pending_user` argument reflects the source's documented precondition that
a pending user has already been checked for. -/
def send_email (stage : EmailStage) (flowSlug : String) (ctx : PlanContext)
    (pending_user : User) (store : TokenStore) (now : Nat) :
    EmailMessage × TokenStore :=
  let email : String :=
    match ctx.emailOverride with
    | none => pending_user.email
    | some e => if e = "" then pending_user.email else e
  let ts := get_token stage flowSlug ctx pending_user store now
  ({ subject := stage.subject
     recipients := [email]
     language := pending_user.locale
     template_name := stage.template
     url := get_full_url flowSlug ts.1.key
     templateUser := pending_user
     expires := ts.1.expires },
   ts.2)

/-- Everything `EmailStageView.get` produces: the executor transition, the
plan context and token store afterwards, the pending user record
afterwards (activation is a save on that record), the emails dispatched,
and the user-facing message added. -/
structure GetOutput where
  outcome : StageOutcome
  context : PlanContext
  store : TokenStore
  user : Option User
  emails : List EmailMessage
  message : Option String
deriving DecidableEq, Repr

/-- `EmailStageView.get`: if the session-stashed GET parameters carry the
reserved token key and the plan is flagged restored, report success
(activating the user first when configured); else fail without a pending
user; else send the initial email unless the sent marker is present, set
the marker, and render the challenge. -/
def EmailStageView.get (stage : EmailStage) (flowSlug : String)
    (sessionHasTokenKey : Bool) (ctx : PlanContext) (store : TokenStore)
    (now : Nat) : GetOutput :=
  if sessionHasTokenKey && ctx.isRestored then
    { outcome := StageOutcome.stageOk
      context := ctx
      store := store
      user :=
        if stage.activate_user_on_success then
          match get_pending_user ctx with
          | some u => some { u with is_active := true }
          | none => none
        else ctx.pendingUser
      emails := []
      message := some ("Successfully verified Email.") }
  else
    match get_pending_user ctx with
    | none =>
      { outcome := StageOutcome.stageInvalid
        context := ctx
        store := store
        user := none
        emails := []
        message := some ("No pending user.") }
    | some u =>
      if ctx.emailSentPresent then
        { outcome := StageOutcome.challengeRendered
          context := ctx
          store := store
          user := some u
          emails := []
          message := none }
      else
        let sent := send_email stage flowSlug ctx u store now
        { outcome := StageOutcome.challengeRendered
          context := { ctx with emailSentPresent := true }
          store := sent.2
          user := some u
          emails := [sent.1]
          message := none }

/-- What a response submission produces: the executor transition, the
token store afterwards, emails dispatched, and the user-facing message. -/
structure RespOutput where
  outcome : StageOutcome
  store : TokenStore
  emails : List EmailMessage
  message : Option String
deriving DecidableEq, Repr

/-- Modelled from the spec: the base `ChallengeStageView.challenge_invalid`
is not among the given sources; per the spec an invalid response is the
STAGE_INVALID transition that re-renders the current stage's challenge
with the validation errors, does not advance, and performs no side
effect. -/
def ChallengeStageView.challenge_invalid (store : TokenStore) : RespOutput :=
  { outcome := StageOutcome.stageInvalid
    store := store
    emails := []
    message := none }

/-- `EmailStageView.challenge_invalid`: without a pending user, add the
error message and defer to the base rejection; otherwise resend the
verification email, then defer to the base rejection (the stage cannot
report ok yet: it is still waiting for the link click). -/
def EmailStageView.challenge_invalid (stage : EmailStage) (flowSlug : String)
    (ctx : PlanContext) (store : TokenStore) (now : Nat) : RespOutput :=
  match get_pending_user ctx with
  | none =>
    { ChallengeStageView.challenge_invalid store with
        message := some ("No pending user.") }
  | some u =>
    let sent := send_email stage flowSlug ctx u store now
    { ChallengeStageView.challenge_invalid sent.2 with emails := [sent.1] }

/-- `EmailStageView.challenge_valid`: delegates to the base class's
`challenge_invalid` on the same response. -/
def EmailStageView.challenge_valid (_stage : EmailStage) (_flowSlug : String)
    (_ctx : PlanContext) (store : TokenStore) (_now : Nat) : RespOutput :=
  ChallengeStageView.challenge_invalid store

/-- `EmailChallengeResponse.validate`: always raises
`ValidationError("email-sent")`, so the response never validates. -/
def EmailChallengeResponse.validate (_attrs : List (String × String)) :
    Except String Unit :=
  Except.error ("email-sent")

/-- Modelled from the spec: the response dispatch
(`ChallengeStageView.post`) is not among the given sources; per the stage
contract it validates the submitted response and routes to
`challenge_valid` on acceptance and `challenge_invalid` on rejection. -/
def EmailStageView.post (stage : EmailStage) (flowSlug : String)
    (ctx : PlanContext) (store : TokenStore) (now : Nat)
    (attrs : List (String × String)) : RespOutput :=
  match EmailChallengeResponse.validate attrs with
  | Except.ok _ => EmailStageView.challenge_valid stage flowSlug ctx store now
  | Except.error _ => EmailStageView.challenge_invalid stage flowSlug ctx store now

/-- Run a sequence of GET requests (one timestamp per request) against the
stage, threading the plan context and token store, and count the emails
dispatched in total. -/
def runGets (stage : EmailStage) (flowSlug : String) (sessionHasTokenKey : Bool) :
    List Nat → PlanContext → TokenStore → PlanContext × TokenStore × Nat
  | [], ctx, store => (ctx, store, 0)
  | t :: ts, ctx, store =>
    let r := EmailStageView.get stage flowSlug sessionHasTokenKey ctx store t
    let rest := runGets stage flowSlug sessionHasTokenKey ts r.context r.store
    (rest.1, rest.2.1, r.emails.length + rest.2.2)

theorem is_expired_eq_false (now : Nat) (t : FlowToken) (h : ¬ t.expires < now) :
    is_expired now t = false := by
  simp [is_expired]
  omega

theorem is_expired_eq_true (now : Nat) (t : FlowToken) (h : t.expires < now) :
    is_expired now t = true := by
  simp [is_expired]
  omega

theorem get_token_found_fresh (stage : EmailStage) (flowSlug : String) (plan : PlanContext)
    (u : User) (store : TokenStore) (now : Nat) (token : FlowToken) (rest : List FlowToken)
    (h : store.tokens.filter (tokenMatches (emailIdentifier stage.name u)) = token :: rest)
    (hfresh : ¬ token.expires < now) :
    get_token stage flowSlug plan u store now = (token, store) := by
  rw [get_token_found stage flowSlug plan u store now token rest h,
    is_expired_eq_false now token hfresh]
  simp

theorem get_token_found_expired (stage : EmailStage) (flowSlug : String) (plan : PlanContext)
    (u : User) (store : TokenStore) (now : Nat) (token : FlowToken) (rest : List FlowToken)
    (h : store.tokens.filter (tokenMatches (emailIdentifier stage.name u)) = token :: rest)
    (hexp : token.expires < now) :
    get_token stage flowSlug plan u store now =
      (expire_action store.nextKey now stage.token_expiry token,
        { tokens :=
            updateFirst (tokenMatches (emailIdentifier stage.name u))
              (fun _ => expire_action store.nextKey now stage.token_expiry token)
              store.tokens
          nextKey := store.nextKey + 1 }) := by
  rw [get_token_found stage flowSlug plan u store now token rest h,
    is_expired_eq_true now token hexp]
  simp

theorem filter_updateFirst {α : Type} (p : α → Bool) (y : α) (hy : p y = true) :
    ∀ (l : List α) (x : α) (r : List α), l.filter p = x :: r →
      (updateFirst p (fun _ => y) l).filter p = y :: r := by
  intro l
  induction l with
  | nil => intro x r h; simp at h
  | cons a as ih =>
    intro x r h
    by_cases hp : p a
    · rw [List.filter_cons_of_pos hp] at h
      rw [List.cons.injEq] at h
      unfold updateFirst
      rw [if_pos hp, List.filter_cons_of_pos hy, h.2]
    · rw [List.filter_cons_of_neg hp] at h
      unfold updateFirst
      rw [if_neg hp, List.filter_cons_of_neg hp]
      exact ih x r h

/-- The token a `get_token` call returns is the first row its identifier
lookup finds in the store the call leaves behind. -/
theorem get_token_result_first (stage : EmailStage) (flowSlug : String) (plan : PlanContext)
    (u : User) (store : TokenStore) (now : Nat) :
    ∃ rest,
      ((get_token stage flowSlug plan u store now).2).tokens.filter
          (tokenMatches (emailIdentifier stage.name u)) =
        (get_token stage flowSlug plan u store now).1 :: rest := by
  rcases hfil : store.tokens.filter (tokenMatches (emailIdentifier stage.name u)) with
    _ | ⟨token, rest⟩
  · rw [get_token_create stage flowSlug plan u store now hfil]
    refine ⟨[], ?_⟩
    rw [List.filter_append, hfil]
    simp [tokenMatches]
  · by_cases hexp : token.expires < now
    · rw [get_token_found_expired stage flowSlug plan u store now token rest hfil hexp]
      refine ⟨rest, ?_⟩
      have hkeep : tokenMatches (emailIdentifier stage.name u)
          (expire_action store.nextKey now stage.token_expiry token) = true := by
        have hm := List.mem_filter.mp (hfil ▸ List.mem_cons_self token rest)
        exact hm.2
      exact filter_updateFirst (tokenMatches (emailIdentifier stage.name u)) _ hkeep
        store.tokens token rest hfil
    · rw [get_token_found_fresh stage flowSlug plan u store now token rest hfil hexp]
      exact ⟨rest, hfil⟩

/-- Claim C4: calling `get_token` twice for the same stage name and pending
user, the second call before the expiry of the token the first call
returned, yields the very same token (same key) the second time: the second
call returns the existing row and leaves the store untouched. -/
theorem claim_C4_get_token_idempotent (stage : EmailStage) (flowSlug : String)
    (plan : PlanContext) (u : User) (store : TokenStore) (t1 t2 : Nat)
    (h2 : ¬ (get_token stage flowSlug plan u store t1).1.expires < t2) :
    get_token stage flowSlug plan u (get_token stage flowSlug plan u store t1).2 t2 =
      get_token stage flowSlug plan u store t1 := by
  obtain ⟨rest, hr⟩ := get_token_result_first stage flowSlug plan u store t1
  rw [get_token_found_fresh stage flowSlug plan u
    (get_token stage flowSlug plan u store t1).2 t2
    (get_token stage flowSlug plan u store t1).1 rest hr h2]

/-- Test fixtures used by the witness theorems. -/
def aliceUser : User :=
  { name := "alice", email := "alice@example.com", is_active := false, locale := "en" }

def stageA : EmailStage :=
  { name := "email-stage"
    token_expiry := 16
    activate_user_on_success := true
    subject := "authentik"
    template := "email/password_reset.html" }

def flowA : String := "default-enrollment-flow"

def emptyStore : TokenStore := { tokens := [], nextKey := 0 }

def ctxPending : PlanContext :=
  { isRestored := false, pendingUser := some aliceUser, emailSentPresent := false
    emailOverride := none }

theorem claim_C4_witness :
    get_token stageA flowA ctxPending aliceUser
        (get_token stageA flowA ctxPending aliceUser emptyStore 100).2 105 =
      get_token stageA flowA ctxPending aliceUser emptyStore 100 :=
  claim_C4_get_token_idempotent stageA flowA ctxPending aliceUser emptyStore 100 105
    (by decide)

/-- Claim C5, counterexample: with `token_expiry = 16` and creation time
100, the created token expires at 117 = 100 + (16 + 1), not at
100 + 16 as the claim states — the source adds one extra minute to the
configured ttl. -/
theorem claim_C5_counterexample :
    (get_token stageA flowA ctxPending aliceUser emptyStore 100).1.expires = 117 ∧
    ¬ (get_token stageA flowA ctxPending aliceUser emptyStore 100).1.expires =
        100 + stageA.token_expiry := by
  decide

/-- Claim C5, amended: when `get_token` finds no existing token for the
computed identifier, the token it creates has `expires` equal to the
creation time plus `token_expiry + 1` minutes (one minute more than the
configured ttl, compensating for display rounding): ttl=16min yields
expires=T+17m. -/
theorem claim_C5_created_token_expiry (stage : EmailStage) (flowSlug : String)
    (plan : PlanContext) (u : User) (store : TokenStore) (now : Nat)
    (h : store.tokens.filter (tokenMatches (emailIdentifier stage.name u)) = []) :
    (get_token stage flowSlug plan u store now).1.expires =
      now + (stage.token_expiry + 1) := by
  rw [get_token_create stage flowSlug plan u store now h]

theorem claim_C5_witness :
    (get_token stageA flowA ctxPending aliceUser emptyStore 100).1.expires =
      100 + (stageA.token_expiry + 1) :=
  claim_C5_created_token_expiry stageA flowA ctxPending aliceUser emptyStore 100 rfl

/-- Claim C6: when `get_token` finds an existing, not-yet-expired token for
the identifier, it returns that token with every field unchanged and
leaves the store untouched, however close to expiry the token is. -/
theorem claim_C6_fresh_token_unchanged (stage : EmailStage) (flowSlug : String)
    (plan : PlanContext) (u : User) (store : TokenStore) (now : Nat)
    (token : FlowToken) (rest : List FlowToken)
    (hfil : store.tokens.filter (tokenMatches (emailIdentifier stage.name u)) =
      token :: rest)
    (hfresh : ¬ token.expires < now) :
    get_token stage flowSlug plan u store now = (token, store) :=
  get_token_found_fresh stage flowSlug plan u store now token rest hfil hfresh

/-- A store holding one token for the fixture identifier, expiring at 117
(close to expiry at access time 117, but not expired). -/
def tokenB : FlowToken :=
  { identifier := emailIdentifier stageA.name aliceUser
    key := 0
    expires := 117
    userName := "alice"
    flowSlug := flowA
    plan := ctxPending }

def storeB : TokenStore := { tokens := [tokenB], nextKey := 1 }

theorem claim_C6_witness :
    get_token stageA flowA ctxPending aliceUser storeB 117 = (tokenB, storeB) :=
  claim_C6_fresh_token_unchanged stageA flowA ctxPending aliceUser storeB 117 tokenB []
    (by decide) (by decide)

/-- All keys already issued lie strictly below the fresh-key counter (the
model of the random key generator never repeating a key). -/
def KeysFresh (store : TokenStore) : Prop :=
  ∀ t ∈ store.tokens, t.key < store.nextKey

/-- Claim C8: when `get_token` finds an expired token for the identifier,
it returns exactly the rotation of that token — identifier preserved, key
replaced by one differing from the pre-rotation key, and `expires`
strictly increased. -/
theorem claim_C8_rotation (stage : EmailStage) (flowSlug : String) (plan : PlanContext)
    (u : User) (store : TokenStore) (now : Nat) (token : FlowToken)
    (rest : List FlowToken)
    (hfil : store.tokens.filter (tokenMatches (emailIdentifier stage.name u)) =
      token :: rest)
    (hexp : token.expires < now)
    (hfresh : KeysFresh store) :
    (get_token stage flowSlug plan u store now).1 =
      expire_action store.nextKey now stage.token_expiry token ∧
    (get_token stage flowSlug plan u store now).1.identifier = token.identifier ∧
    ¬ (get_token stage flowSlug plan u store now).1.key = token.key ∧
    token.expires < (get_token stage flowSlug plan u store now).1.expires := by
  rw [get_token_found_expired stage flowSlug plan u store now token rest hfil hexp]
  have hmem : token ∈ store.tokens :=
    (List.mem_filter.mp (hfil ▸ List.mem_cons_self token rest)).1
  have hkey := hfresh token hmem
  refine ⟨rfl, rfl, ?_, ?_⟩
  · show ¬ store.nextKey = token.key
    omega
  · show token.expires < now + stage.token_expiry
    omega

/-- A store holding one token for the fixture identifier, already expired
at access time 100. -/
def tokenOld : FlowToken :=
  { identifier := emailIdentifier stageA.name aliceUser
    key := 0
    expires := 5
    userName := "alice"
    flowSlug := flowA
    plan := ctxPending }

def storeOld : TokenStore := { tokens := [tokenOld], nextKey := 1 }

theorem claim_C8_witness :
    ¬ (get_token stageA flowA ctxPending aliceUser storeOld 100).1.key = tokenOld.key ∧
    tokenOld.expires < (get_token stageA flowA ctxPending aliceUser storeOld 100).1.expires := by
  have h := claim_C8_rotation stageA flowA ctxPending aliceUser storeOld 100 tokenOld []
    (by decide) (by decide) (by unfold KeysFresh; decide)
  exact ⟨h.2.2.1, h.2.2.2⟩

theorem get_restored (stage : EmailStage) (flowSlug : String) (sess : Bool)
    (ctx : PlanContext) (store : TokenStore) (now : Nat)
    (hres : (sess && ctx.isRestored) = true) :
    EmailStageView.get stage flowSlug sess ctx store now =
      { outcome := StageOutcome.stageOk
        context := ctx
        store := store
        user :=
          if stage.activate_user_on_success then
            match get_pending_user ctx with
            | some u => some { u with is_active := true }
            | none => none
          else ctx.pendingUser
        emails := []
        message := some ("Successfully verified Email.") } := by
  unfold EmailStageView.get
  rw [hres]
  simp

theorem get_not_restored_no_user (stage : EmailStage) (flowSlug : String) (sess : Bool)
    (ctx : PlanContext) (store : TokenStore) (now : Nat)
    (hres : (sess && ctx.isRestored) = false) (hu : ctx.pendingUser = none) :
    EmailStageView.get stage flowSlug sess ctx store now =
      { outcome := StageOutcome.stageInvalid
        context := ctx
        store := store
        user := none
        emails := []
        message := some ("No pending user.") } := by
  unfold EmailStageView.get get_pending_user
  rw [hres, hu]
  simp

theorem get_marker_present (stage : EmailStage) (flowSlug : String) (sess : Bool)
    (ctx : PlanContext) (store : TokenStore) (now : Nat) (u : User)
    (hres : (sess && ctx.isRestored) = false) (hu : ctx.pendingUser = some u)
    (hm : ctx.emailSentPresent = true) :
    EmailStageView.get stage flowSlug sess ctx store now =
      { outcome := StageOutcome.challengeRendered
        context := ctx
        store := store
        user := some u
        emails := []
        message := none } := by
  unfold EmailStageView.get get_pending_user
  rw [hres, hu, hm]
  simp

theorem get_first_send (stage : EmailStage) (flowSlug : String) (sess : Bool)
    (ctx : PlanContext) (store : TokenStore) (now : Nat) (u : User)
    (hres : (sess && ctx.isRestored) = false) (hu : ctx.pendingUser = some u)
    (hm : ctx.emailSentPresent = false) :
    EmailStageView.get stage flowSlug sess ctx store now =
      { outcome := StageOutcome.challengeRendered
        context := { ctx with emailSentPresent := true }
        store := (send_email stage flowSlug ctx u store now).2
        user := some u
        emails := [(send_email stage flowSlug ctx u store now).1]
        message := none } := by
  unfold EmailStageView.get get_pending_user
  rw [hres, hu, hm]
  simp

/-- Claim C1: on a GET whose session-stashed GET parameters contain the
reserved token query key and whose plan context is flagged restored, the
stage reports `stage_ok` without any response submission (and without
sending mail), and when `activate_user_on_success` is set it saves the
pending user with `is_active = True` first. -/
theorem claim_C1_restoration_completes (stage : EmailStage) (flowSlug : String)
    (ctx : PlanContext) (store : TokenStore) (now : Nat) (u : User)
    (hres : ctx.isRestored = true) (hu : ctx.pendingUser = some u) :
    (EmailStageView.get stage flowSlug true ctx store now).outcome =
      StageOutcome.stageOk ∧
    (EmailStageView.get stage flowSlug true ctx store now).emails = [] ∧
    (stage.activate_user_on_success = true →
      (EmailStageView.get stage flowSlug true ctx store now).user =
        some { u with is_active := true }) := by
  rw [get_restored stage flowSlug true ctx store now (by rw [hres]; rfl)]
  refine ⟨rfl, rfl, ?_⟩
  intro ha
  simp [get_pending_user, ha, hu]

/-- A restored plan context carrying a pending user. -/
def ctxRestored : PlanContext :=
  { isRestored := true, pendingUser := some aliceUser, emailSentPresent := false
    emailOverride := none }

theorem claim_C1_witness :
    (EmailStageView.get stageA flowA true ctxRestored emptyStore 0).outcome =
      StageOutcome.stageOk ∧
    (EmailStageView.get stageA flowA true ctxRestored emptyStore 0).user =
      some { aliceUser with is_active := true } := by
  have h := claim_C1_restoration_completes stageA flowA ctxRestored emptyStore 0 aliceUser
    rfl rfl
  exact ⟨h.1, h.2.2 rfl⟩

/-- A fixture stage that does not activate the user on success. -/
def stageB : EmailStage :=
  { name := "email-stage"
    token_expiry := 16
    activate_user_on_success := false
    subject := "authentik"
    template := "email/password_reset.html" }

/-- A restored plan context with no pending user. -/
def ctxRestoredNoUser : PlanContext :=
  { isRestored := true, pendingUser := none, emailSentPresent := false
    emailOverride := none }

/-- Claim C2, counterexample: a GET whose plan context lacks the pending
user but satisfies the restoration condition (token key in the
session-stashed GET parameters and the is-restored flag) returns
`stage_ok`, not `stage_invalid` — the restoration branch runs before the
pending-user check. -/
theorem claim_C2_counterexample :
    (EmailStageView.get stageB flowA true ctxRestoredNoUser emptyStore 0).outcome =
      StageOutcome.stageOk ∧
    ¬ (EmailStageView.get stageB flowA true ctxRestoredNoUser emptyStore 0).outcome =
        StageOutcome.stageInvalid := by
  decide

/-- Claim C2, amended: for every entry into the stage whose plan context
lacks the pending-user key and, for a GET, does not satisfy the
restoration condition, the stage reports the STAGE_INVALID transition with
the descriptive reason "No pending user." and `send_email` is never
called on that entry. -/
theorem claim_C2_missing_user_invalid (stage : EmailStage) (flowSlug : String)
    (sess : Bool) (ctx : PlanContext) (store : TokenStore) (now : Nat)
    (hu : ctx.pendingUser = none) (hres : (sess && ctx.isRestored) = false) :
    (EmailStageView.get stage flowSlug sess ctx store now).outcome =
      StageOutcome.stageInvalid ∧
    (EmailStageView.get stage flowSlug sess ctx store now).emails = [] ∧
    (EmailStageView.get stage flowSlug sess ctx store now).message =
      some ("No pending user.") ∧
    (EmailStageView.challenge_invalid stage flowSlug ctx store now).outcome =
      StageOutcome.stageInvalid ∧
    (EmailStageView.challenge_invalid stage flowSlug ctx store now).emails = [] ∧
    (EmailStageView.challenge_invalid stage flowSlug ctx store now).message =
      some ("No pending user.") := by
  rw [get_not_restored_no_user stage flowSlug sess ctx store now hres hu]
  unfold EmailStageView.challenge_invalid get_pending_user
  rw [hu]
  exact ⟨rfl, rfl, rfl, rfl, rfl, rfl⟩

/-- A non-restored plan context with no pending user. -/
def ctxNoUser : PlanContext :=
  { isRestored := false, pendingUser := none, emailSentPresent := false
    emailOverride := none }

theorem claim_C2_witness :
    (EmailStageView.get stageA flowA false ctxNoUser emptyStore 0).outcome =
      StageOutcome.stageInvalid ∧
    (EmailStageView.get stageA flowA false ctxNoUser emptyStore 0).emails = [] ∧
    (EmailStageView.challenge_invalid stageA flowA ctxNoUser emptyStore 0).emails = [] := by
  have h := claim_C2_missing_user_invalid stageA flowA false ctxNoUser emptyStore 0 rfl rfl
  exact ⟨h.1, h.2.1, h.2.2.2.2.1⟩

theorem runGets_marker_set (stage : EmailStage) (flowSlug : String) (sess : Bool)
    (u : User) :
    ∀ (times : List Nat) (ctx : PlanContext) (store : TokenStore),
      (sess && ctx.isRestored) = false → ctx.pendingUser = some u →
      ctx.emailSentPresent = true →
      (runGets stage flowSlug sess times ctx store).2.2 = 0 := by
  intro times
  induction times with
  | nil => intro ctx store _ _ _; rfl
  | cons t ts ih =>
    intro ctx store hres hu hm
    unfold runGets
    rw [get_marker_present stage flowSlug sess ctx store t u hres hu hm]
    simpa using ih ctx store hres hu hm

/-- Claim C3: with a pending user present, the sent marker absent and the
restoration condition not satisfied, a GET dispatches exactly one email
and sets the marker; across any nonempty sequence of repeated GETs from
that state, exactly one email is dispatched in total. -/
theorem claim_C3_email_sent_once (stage : EmailStage) (flowSlug : String) (sess : Bool)
    (ctx : PlanContext) (store : TokenStore) (u : User) (now : Nat) (times : List Nat)
    (hres : (sess && ctx.isRestored) = false) (hu : ctx.pendingUser = some u)
    (hm : ctx.emailSentPresent = false) (hne : ¬ times = []) :
    (EmailStageView.get stage flowSlug sess ctx store now).emails.length = 1 ∧
    (EmailStageView.get stage flowSlug sess ctx store now).context.emailSentPresent =
      true ∧
    (runGets stage flowSlug sess times ctx store).2.2 = 1 := by
  refine ⟨?_, ?_, ?_⟩
  · rw [get_first_send stage flowSlug sess ctx store now u hres hu hm]
    rfl
  · rw [get_first_send stage flowSlug sess ctx store now u hres hu hm]
  · cases times with
    | nil => exact absurd rfl hne
    | cons t ts =>
      unfold runGets
      rw [get_first_send stage flowSlug sess ctx store t u hres hu hm]
      have h0 := runGets_marker_set stage flowSlug sess u ts
        { ctx with emailSentPresent := true }
        (send_email stage flowSlug ctx u store t).2 hres hu rfl
      simpa using h0

theorem claim_C3_witness :
    (EmailStageView.get stageA flowA false ctxPending emptyStore 0).emails.length = 1 ∧
    (EmailStageView.get stageA flowA false ctxPending emptyStore 0).context.emailSentPresent =
      true ∧
    (runGets stageA flowA false [0, 1, 2] ctxPending emptyStore).2.2 = 1 :=
  claim_C3_email_sent_once stageA flowA false ctxPending emptyStore aliceUser 0 [0, 1, 2]
    rfl rfl rfl (by decide)

/-- Claim C7: every response submission is rejected by
`EmailChallengeResponse.validate`, so the stage never advances through a
response; with a pending user present, each submission resends exactly one
verification email and ends in the STAGE_INVALID transition that
re-renders the challenge. -/
theorem claim_C7_response_always_invalid (stage : EmailStage) (flowSlug : String)
    (ctx : PlanContext) (store : TokenStore) (now : Nat)
    (attrs : List (String × String)) (u : User)
    (hu : ctx.pendingUser = some u) :
    EmailStageView.post stage flowSlug ctx store now attrs =
      EmailStageView.challenge_invalid stage flowSlug ctx store now ∧
    (EmailStageView.post stage flowSlug ctx store now attrs).emails =
      [(send_email stage flowSlug ctx u store now).1] ∧
    (EmailStageView.post stage flowSlug ctx store now attrs).outcome =
      StageOutcome.stageInvalid := by
  refine ⟨rfl, ?_, ?_⟩ <;>
    simp [EmailStageView.post, EmailChallengeResponse.validate,
      EmailStageView.challenge_invalid, get_pending_user, hu,
      ChallengeStageView.challenge_invalid]

theorem claim_C7_witness :
    EmailStageView.post stageA flowA ctxPending emptyStore 0 [] =
      EmailStageView.challenge_invalid stageA flowA ctxPending emptyStore 0 ∧
    (EmailStageView.post stageA flowA ctxPending emptyStore 0 []).emails =
      [(send_email stageA flowA ctxPending aliceUser emptyStore 0).1] ∧
    (EmailStageView.post stageA flowA ctxPending emptyStore 0 []).outcome =
      StageOutcome.stageInvalid :=
  claim_C7_response_always_invalid stageA flowA ctxPending emptyStore 0 [] aliceUser rfl

/-- The recipient `send_email` selects, in the claim's words: the plan
context value under the "email" key when present and truthy, otherwise the
pending user's stored address. -/
def specRecipient (ctx : PlanContext) (pending_user : User) : String :=
  match ctx.emailOverride with
  | some e => if ¬ e = "" then e else pending_user.email
  | none => pending_user.email

/-- Claim C9: for every call to `send_email`, the recipient list is exactly
the singleton of the "email" plan-context override when it is present and
truthy, and the pending user's stored email address otherwise. -/
theorem claim_C9_recipient_selection (stage : EmailStage) (flowSlug : String)
    (ctx : PlanContext) (u : User) (store : TokenStore) (now : Nat) :
    (send_email stage flowSlug ctx u store now).1.recipients = [specRecipient ctx u] := by
  unfold send_email specRecipient
  rcases ctx.emailOverride with _ | e
  · rfl
  · by_cases he : e = ""
    · simp [he]
    · simp [he]

theorem claim_C9_witness :
    (send_email stageA flowA ctxPending aliceUser emptyStore 0).1.recipients =
      [specRecipient ctxPending aliceUser] :=
  claim_C9_recipient_selection stageA flowA ctxPending aliceUser emptyStore 0

/-- Claim C10: `EmailStageView.challenge_valid` is extensionally the base
class's `challenge_invalid` on the same response — same result, no email —
whereas `EmailStageView.challenge_invalid` with a pending user present
does resend. -/
theorem claim_C10_valid_equals_base_invalid (stage : EmailStage) (flowSlug : String)
    (ctx : PlanContext) (store : TokenStore) (now : Nat) (u : User)
    (hu : ctx.pendingUser = some u) :
    EmailStageView.challenge_valid stage flowSlug ctx store now =
      ChallengeStageView.challenge_invalid store ∧
    (EmailStageView.challenge_valid stage flowSlug ctx store now).emails = [] ∧
    ¬ (EmailStageView.challenge_invalid stage flowSlug ctx store now).emails = [] := by
  refine ⟨rfl, rfl, ?_⟩
  simp [EmailStageView.challenge_invalid, get_pending_user, hu,
    ChallengeStageView.challenge_invalid]

theorem claim_C10_witness :
    EmailStageView.challenge_valid stageA flowA ctxPending emptyStore 0 =
      ChallengeStageView.challenge_invalid emptyStore ∧
    (EmailStageView.challenge_valid stageA flowA ctxPending emptyStore 0).emails = [] :=
  ⟨(claim_C10_valid_equals_base_invalid stageA flowA ctxPending emptyStore 0 aliceUser
      rfl).1,
   (claim_C10_valid_equals_base_invalid stageA flowA ctxPending emptyStore 0 aliceUser
      rfl).2.1⟩
